import Mathlib

/-!
Verification of the air-quality ingestion / synchronization / forecasting
core: a shallow embedding of `api/database.py`, `api/predictions.py` and
`api/locations.py`, followed by theorems settling the specified properties.

Modelling conventions:
* timestamps are integers (chronological order embeds datetime order);
* numeric values (floats in the source) are rationals;
* the sqlite tables are lists of rows; an integrity error (duplicate primary
  key on a plain INSERT) makes the whole batch return `none`, mirroring the
  rolled-back transaction of the `with conn:` block;
* external effects (the Prophet model, the OpenAQ network client) enter as
  function arguments; a raised exception from a per-sensor fetch is an
  `Except.error`.
-/

namespace AirQuality

/-! ### Entity model (api/models.py) -/

/-- `Sensor` (api/models.py). -/
structure Sensor where
  id : Int
  name : String
deriving DecidableEq

/-- `Location` (api/models.py). `last_updated` is kept abstract as the string
the adapter would store (`isoformat()` of the datetime, if any). -/
structure Location where
  id : Int
  name : String
  latitude : ℚ
  longitude : ℚ
  available_sensors : List Sensor
  last_updated : Option String
deriving DecidableEq

/-! ### Relational store adapter (api/database.py) -/

/-- A row of the `locations` table. The `created_at` / `updated_at` audit
columns are not modelled; no claim mentions them. -/
structure LocationRow where
  id : Int
  name : String
  latitude : ℚ
  longitude : ℚ
  last_updated : Option String
deriving DecidableEq

/-- The three tables of the sqlite database: `locations`, `sensors`
(id, name) and the `location_sensors` join table. -/
structure DBState where
  locations : List LocationRow
  sensors : List (Int × String)
  location_sensors : List (Int × Int)
deriving DecidableEq

/-- The row written for a location by the batch upsert. -/
def locationToRow (loc : Location) : LocationRow :=
  ⟨loc.id, loc.name, loc.latitude, loc.longitude, loc.last_updated⟩

/-- `INSERT OR REPLACE INTO locations`: replace the row carrying this id,
else append a fresh row. -/
def replaceLocationRow (row : LocationRow) : List LocationRow → List LocationRow
  | [] => [row]
  | r :: rs => if r.id = row.id then row :: rs else r :: replaceLocationRow row rs

/-- Python dict assignment `d[k] = v`: the first-insertion position of a key
is kept but its value is overwritten. -/
def dictInsert {κ α : Type} [DecidableEq κ] (k : κ) (v : α) :
    List (κ × α) → List (κ × α)
  | [] => [(k, v)]
  | (k', v') :: rest =>
    if k' = k then (k', v) :: rest else (k', v') :: dictInsert k v rest

/-- Python dict lookup `d[k]` / `d.get(k)`. -/
def dictGet {κ α : Type} [DecidableEq κ] (k : κ) (d : List (κ × α)) : Option α :=
  (d.find? (fun e => decide (e.1 = k))).map (fun e => e.2)

/-- The `sensor_data` dict of `store_locations_batch`: every location's
sensors folded into one id-keyed dict (`sensor_data[sensor.id] =
(sensor.id, sensor.name)`). -/
def sensor_dict (locations : List Location) : List (Int × (Int × String)) :=
  (locations.flatMap Location.available_sensors).foldl
    (fun d s => dictInsert s.id (s.id, s.name) d) []

/-- `INSERT OR IGNORE INTO sensors`, executemany over the dict's values:
a row whose id is already present is skipped, otherwise appended. -/
def insertOrIgnoreSensors (vals : List (Int × String)) (tbl : List (Int × String)) :
    List (Int × String) :=
  vals.foldl (fun t v => if t.any (fun r => decide (r.1 = v.1)) then t else t ++ [v]) tbl

/-- `DELETE FROM location_sensors WHERE location_id = ?`, executemany over
the batch's location ids. -/
def deleteRelationships (locIds : List Int) (rels : List (Int × Int)) :
    List (Int × Int) :=
  rels.filter (fun p => decide (p.1 ∉ locIds))

/-- Plain `INSERT INTO location_sensors`: inserting a (location_id, sensor_id)
pair that is already present violates the primary key and aborts the batch
(`none`, the transaction rolls back). -/
def insertRelationships : List (Int × Int) → List (Int × Int) → Option (List (Int × Int))
  | [], rels => some rels
  | p :: ps, rels => if p ∈ rels then none else insertRelationships ps (rels ++ [p])

/-- The `relationship_data` list of `store_locations_batch`. -/
def relationship_data (locations : List Location) : List (Int × Int) :=
  locations.flatMap (fun loc => loc.available_sensors.map (fun s => (loc.id, s.id)))

/-- `AirQualityDB.store_locations_batch`: replace-or-insert every location
row, insert-if-absent the deduplicated sensor rows, delete the batch
locations' relationship rows, then insert the current relationship set.
`none` models the integrity error that rolls the transaction back. -/
def store_locations_batch (locations : List Location) (db : DBState) : Option DBState :=
  let locRows := (locations.map locationToRow).foldl (fun t r => replaceLocationRow r t) db.locations
  let sensorRows := insertOrIgnoreSensors ((sensor_dict locations).map Prod.snd) db.sensors
  let rels0 := deleteRelationships (locations.map Location.id) db.location_sensors
  (insertRelationships (relationship_data locations) rels0).map
    (fun rels => ⟨locRows, sensorRows, rels⟩)

/-- `AirQualityDB.get_sensors_by_location`: the join of `location_sensors`
with `sensors` restricted to one location id. -/
def get_sensors_by_location (db : DBState) (location_id : Int) : List Sensor :=
  db.location_sensors.filterMap (fun p =>
    if p.1 = location_id then
      (db.sensors.find? (fun r => decide (r.1 = p.2))).map (fun r => ⟨r.1, r.2⟩)
    else none)

/-! ### Measurement series and forecasting (api/predictions.py) -/

/-- A row of the DataFrame handed to the predictor: one measurement sample. -/
structure Sample where
  timestamp : Int
  value : ℚ
deriving DecidableEq

/-- `measurement.parameter` of an OpenAQ measurement. -/
structure ParameterInfo where
  name : String
  units : String
deriving DecidableEq

/-- One element of `client.measurements.list(...).results`:
`measurement.period.datetime_to.utc` is the sample's timestamp. -/
structure MeasurementResult where
  parameter : ParameterInfo
  value : ℚ
  datetime_to : Int
deriving DecidableEq

/-- The response object of `client.measurements.list`. -/
structure MeasurementsResponse where
  results : List MeasurementResult
deriving DecidableEq

/-- Comparison used when sorting samples by the `timestamp` column. -/
def sampleLe (a b : Sample) : Prop := a.timestamp ≤ b.timestamp

instance : DecidableRel sampleLe := fun a b => Int.decLe a.timestamp b.timestamp

instance : IsTotal Sample sampleLe := ⟨fun a b => Int.le_total a.timestamp b.timestamp⟩

instance : IsTrans Sample sampleLe := ⟨fun _ _ _ => Int.le_trans⟩

/-- `AirQualityPredictor.measurements_to_dataframe`: one row per raw result
(timestamp = `period.datetime_to.utc`, value), sorted by timestamp ascending.
The source sorts with `DataFrame.sort_values`, whose order among equal
timestamps is unspecified; the embedding sorts with insertion sort, and the
theorems below only use order-independent consequences (permutation and
sortedness). -/
def measurements_to_dataframe (resp : MeasurementsResponse) : List Sample :=
  (resp.results.map (fun m => Sample.mk m.datetime_to m.value)).insertionSort sampleLe

/-- pandas `Series.quantile q` with the default linear interpolation: with
the values sorted and h = (n − 1)·q, the quantile is
`v[⌊h⌋] + (h − ⌊h⌋)·(v[⌊h⌋+1] − v[⌊h⌋])`.  The quantile `q = qn/qd` is
passed as numerator and denominator (the source calls it at 0.25 and 0.75,
both exact in floating point), so that ⌊h⌋ and the fractional part are the
natural-number division and remainder of (n − 1)·qn by qd. -/
def pandasQuantile (xs : List ℚ) (qn qd : Nat) : ℚ :=
  let sorted := xs.insertionSort (· ≤ ·)
  let pos : Nat := (xs.length - 1) * qn
  let i : Nat := pos / qd
  let frac : ℚ := ((pos % qd : Nat) : ℚ) / (qd : ℚ)
  match sorted[i]?, sorted[i + 1]? with
  | some a, some b => a + frac * (b - a)
  | some a, none => a
  | none, _ => 0

/-- `AirQualityPredictor._remove_outliers`: with fewer than 3 samples the
frame passes through unchanged; otherwise keep exactly the rows whose value
lies in `[max 0 (Q1 − 1.5·IQR), Q3 + 1.5·IQR]`. -/
def remove_outliers (df : List Sample) : List Sample :=
  if df.length < 3 then df
  else
    let q1 := pandasQuantile (df.map Sample.value) 1 4
    let q3 := pandasQuantile (df.map Sample.value) 3 4
    let iqr := q3 - q1
    let lower_bound := max 0 (q1 - 3/2 * iqr)
    let upper_bound := q3 + 3/2 * iqr
    df.filter (fun s => decide (lower_bound ≤ s.value) && decide (s.value ≤ upper_bound))

/-- `AirQualityPredictor._prepare_prophet_data`: renames the columns to
(ds, y), strips timezones and drops NaN rows.  Timestamps are already
timezone-free integers and rational values have no NaN, so the rows are kept
unchanged (an empty frame stays empty). -/
def prepare_prophet_data (df : List Sample) : List Sample := df

/-- Python's round-half-to-even on a rational, to integer precision. -/
def roundHalfEven (q : ℚ) : Int :=
  let f := Int.floor q
  let frac := q - (f : ℚ)
  if frac < 1/2 then f
  else if 1/2 < frac then f + 1
  else if f % 2 = 0 then f else f + 1

/-- Python `round(x, 3)`. -/
def round3 (q : ℚ) : ℚ := (roundHalfEven (q * 1000) : ℚ) / 1000

/-- A prediction point (api/models.py); timestamps stay integers. -/
structure PredictionPoint where
  timestamp : Int
  predicted_value : ℚ
  lower_bound : Option ℚ
  upper_bound : Option ℚ
deriving DecidableEq

/-- `ParameterPrediction` (api/models.py). -/
structure ParameterPrediction where
  parameter_name : String
  unit : String
  model_type : String
  forecast_hours : Nat
  predictions : List PredictionPoint
  confidence_interval : ℚ
  training_data_points : Nat
deriving DecidableEq

/-- One row of the Prophet forecast frame: `ds`, `yhat`, and the optional
`yhat_lower` / `yhat_upper` columns (mirroring the `"yhat_lower" in row`
membership check of the source). -/
structure ForecastRow where
  ds : Int
  yhat : ℚ
  yhat_lower : Option ℚ
  yhat_upper : Option ℚ
deriving DecidableEq

/-- pandas `DataFrame.tail n`: the last n rows. -/
def tailRows (df : List ForecastRow) (n : Nat) : List ForecastRow :=
  df.drop (df.length - n)

/-- `AirQualityPredictor._extract_predictions`: from the last
`forecast_hours` rows of the forecast, floor `yhat` and the bounds at 0 and
round to 3 decimals.  The `confidence_interval` argument is unused, exactly
as in the source. -/
def extract_predictions (forecast : List ForecastRow) (forecast_hours : Nat)
    (confidence_interval : ℚ) : List PredictionPoint :=
  (tailRows forecast forecast_hours).map (fun row =>
    { timestamp := row.ds
      predicted_value := round3 (max 0 row.yhat)
      lower_bound := row.yhat_lower.map (fun l => round3 (max 0 l))
      upper_bound := row.yhat_upper.map (fun u => round3 (max 0 u)) })

/-- `AirQualityPredictor.min_data_points`. -/
def min_data_points : Nat := 10

/-- `AirQualityPredictor.predict_parameter_from_data`.  The Prophet model
(create, fit, make_future_dataframe, predict) is an external library and
enters the embedding as the `model` argument mapping the prepared training
frame and the horizon to the forecast frame.  The guard
`historical_data.empty or len(historical_data) < min_data_points` collapses
to the single length test because an empty frame has length 0 < 10. -/
def predict_parameter_from_data
    (model : List Sample → Nat → List ForecastRow)
    (historical_data : List Sample)
    (parameter_name parameter_unit : String)
    (forecast_hours : Nat) (confidence_interval : ℚ) : Option ParameterPrediction :=
  if historical_data.length < min_data_points then none
  else
    let cleaned_data := remove_outliers historical_data
    let df := prepare_prophet_data cleaned_data
    if df.isEmpty then none
    else
      let forecast := model df forecast_hours
      some { parameter_name := parameter_name
             unit := parameter_unit
             model_type := "Prophet"
             forecast_hours := forecast_hours
             predictions := extract_predictions forecast forecast_hours confidence_interval
             confidence_interval := confidence_interval
             training_data_points := df.length }

/-! ### Ground-data aggregation (api/locations.py) -/

/-- One value of the `parameters` dict built by
`get_ground_data_by_location_id`. -/
structure ParameterEntry where
  value : ℚ
  unit : String
  sensor_id : Int
  sensor_name : String
  timestamp : Int
deriving DecidableEq

/-- The dict returned by `get_ground_data_by_location_id`.  The two return
paths carry different key sets, so the fields absent from the no-sensors
branch are options. -/
structure GroundDataResult where
  source : String
  parameters : List (String × ParameterEntry)
  datetime_from : Option String
  datetime_to : Option String
  sensors_count : Option Nat
  measurements_found : Option Nat
  message : Option String
deriving DecidableEq

/-- The body of the per-sensor loop: query the sensor's measurements, take
`results[0]` as the latest measurement and build that parameter's entry.  A
raised exception (`Except.error`) or an empty (falsy) result list leaves the
dict unchanged. -/
def sensorContribution (fetch : Int → Except String MeasurementsResponse) (s : Sensor) :
    Option (String × ParameterEntry) :=
  match fetch s.id with
  | .error _ => none
  | .ok resp =>
    match resp.results with
    | [] => none
    | m :: _ => some (m.parameter.name, ⟨m.value, m.parameter.units, s.id, s.name, m.datetime_to⟩)

/-- The per-sensor loop of `get_ground_data_by_location_id`, folding each
sensor's contribution into the `parameters` dict. -/
def processSensors (fetch : Int → Except String MeasurementsResponse)
    (init : List (String × ParameterEntry)) (sensors : List Sensor) :
    List (String × ParameterEntry) :=
  sensors.foldl (fun params s =>
    match sensorContribution fetch s with
    | none => params
    | some kv => dictInsert kv.1 kv.2 params) init

/-- `get_ground_data_by_location_id`: resolve the location's sensors from the
store; with none, return the empty-parameters result with an explanatory
message; otherwise fold every sensor's latest measurement into the
parameters dict.  The default-window computation (now − 24h, now) happens
before this logic and is passed in as the two datetime strings. -/
def get_ground_data_by_location_id (db : DBState)
    (fetch : Int → Except String MeasurementsResponse)
    (location_id : Int) (datetime_from datetime_to : String) : GroundDataResult :=
  let sensors := get_sensors_by_location db location_id
  if sensors.isEmpty then
    { source := "OpenAQ"
      parameters := []
      datetime_from := none
      datetime_to := none
      sensors_count := none
      measurements_found := none
      message := some ("No sensors found for location ID " ++ toString location_id) }
  else
    let parameters := processSensors fetch [] sensors
    { source := "OpenAQ"
      parameters := parameters
      datetime_from := some datetime_from
      datetime_to := some datetime_to
      sensors_count := some sensors.length
      measurements_found := some parameters.length
      message := none }

/-- The spec's comparison notion for the latest-measurement claim: the most
recent sample, by timestamp, among the raw results returned for a sensor. -/
def specMostRecentSample (results : List MeasurementResult) : Option MeasurementResult :=
  results.foldl (fun acc m =>
    match acc with
    | none => some m
    | some b => if b.datetime_to < m.datetime_to then some m else some b) none

/-! ### Helper lemmas: the Python dict model -/

theorem dictGet_nil {κ α : Type} [DecidableEq κ] (k : κ) :
    dictGet k ([] : List (κ × α)) = none := rfl

theorem dictGet_cons {κ α : Type} [DecidableEq κ] (k : κ) (e : κ × α) (d : List (κ × α)) :
    dictGet k (e :: d) = if e.1 = k then some e.2 else dictGet k d := by
  by_cases h : e.1 = k <;> simp [dictGet, List.find?_cons, h]

theorem dictGet_dictInsert {κ α : Type} [DecidableEq κ] (k k' : κ) (v : α) (d : List (κ × α)) :
    dictGet k' (dictInsert k v d) = if k' = k then some v else dictGet k' d := by
  induction d with
  | nil =>
    by_cases h : k' = k
    · simp [dictInsert, dictGet_cons, dictGet_nil, h]
    · have h2 : k ≠ k' := fun hh => h hh.symm
      simp [dictInsert, dictGet_cons, dictGet_nil, h, h2]
  | cons e rest ih =>
    by_cases hek : e.1 = k
    · by_cases h : k' = k
      · subst h
        simp [dictInsert, hek, dictGet_cons]
      · have h1 : e.1 ≠ k' := fun he => h (he ▸ hek)
        have h2 : k ≠ k' := fun hh => h hh.symm
        simp [dictInsert, hek, dictGet_cons, h1, h, h2]
    · by_cases hek' : e.1 = k'
      · have h : k' ≠ k := fun he => hek (hek' ▸ he)
        simp [dictInsert, hek, dictGet_cons, hek', h]
      · simp [dictInsert, hek, dictGet_cons, hek', ih]

/-- Folding `dictInsert` over a list of records: the value found for a key is
the one from the last record carrying that key (Python dict assignment
overwrites). -/
theorem dictGet_foldl_dictInsert {κ α σ : Type} [DecidableEq κ]
    (f : σ → κ) (g : σ → α) (k : κ) (xs : List σ) (d : List (κ × α)) :
    dictGet k (xs.foldl (fun acc x => dictInsert (f x) (g x) acc) d)
      = match xs.reverse.find? (fun x => decide (f x = k)) with
        | some x => some (g x)
        | none => dictGet k d := by
  induction xs generalizing d with
  | nil => simp
  | cons x rest ih =>
    rw [List.foldl_cons, ih, List.reverse_cons, List.find?_append]
    cases hfind : rest.reverse.find? (fun x => decide (f x = k)) with
    | some y => simp [Option.orElse]
    | none =>
      by_cases hx : f x = k
      · simp [Option.orElse, List.find?_cons, hx, dictGet_dictInsert]
      · have h2 : k ≠ f x := fun hh => hx hh.symm
        simp [Option.orElse, List.find?_cons, hx, dictGet_dictInsert, h2]

/-! ### Helper lemmas: relationship rows -/

theorem insertRelationships_sound :
    ∀ (ps rels out : List (Int × Int)),
      insertRelationships ps rels = some out → out = rels ++ ps := by
  intro ps
  induction ps with
  | nil =>
    intro rels out h
    simp only [insertRelationships, Option.some.injEq] at h
    simp [h]
  | cons p ps ih =>
    intro rels out h
    by_cases hp : p ∈ rels
    · simp [insertRelationships, hp] at h
    · simp only [insertRelationships, if_neg hp] at h
      simpa [List.append_assoc] using ih (rels ++ [p]) out h

theorem insertRelationships_of_disjoint :
    ∀ (ps rels : List (Int × Int)), ps.Nodup → (∀ p ∈ ps, p ∉ rels) →
      insertRelationships ps rels = some (rels ++ ps) := by
  intro ps
  induction ps with
  | nil => intro rels _ _; simp [insertRelationships]
  | cons p ps ih =>
    intro rels hnd hdisj
    have hp : p ∉ rels := hdisj p (List.mem_cons_self p ps)
    rw [insertRelationships, if_neg hp]
    have hrest : ∀ q ∈ ps, q ∉ rels ++ [p] := by
      intro q hq
      simp only [List.mem_append, List.mem_singleton]
      rintro (hrl | hqp)
      · exact hdisj q (List.mem_cons_of_mem p hq) hrl
      · exact (List.nodup_cons.mp hnd).1 (hqp ▸ hq)
    rw [ih (rels ++ [p]) (List.nodup_cons.mp hnd).2 hrest]
    simp

theorem mem_deleteRelationships (ids : List Int) (l : List (Int × Int)) (p : Int × Int) :
    p ∈ deleteRelationships ids l ↔ p ∈ l ∧ p.1 ∉ ids := by
  simp [deleteRelationships, List.mem_filter]

theorem deleteRelationships_append (ids : List Int) (l1 l2 : List (Int × Int)) :
    deleteRelationships ids (l1 ++ l2)
      = deleteRelationships ids l1 ++ deleteRelationships ids l2 := by
  simp [deleteRelationships, List.filter_append]

theorem deleteRelationships_idem (ids : List Int) (l : List (Int × Int)) :
    deleteRelationships ids (deleteRelationships ids l) = deleteRelationships ids l := by
  simp only [deleteRelationships, List.filter_filter]
  exact List.filter_congr (fun p _ => by by_cases h : p.1 ∉ ids <;> simp [h])

theorem deleteRelationships_eq_nil (ids : List Int) (l : List (Int × Int))
    (h : ∀ p ∈ l, p.1 ∈ ids) : deleteRelationships ids l = [] := by
  rw [deleteRelationships, List.filter_eq_nil_iff]
  intro p hp
  simp [h p hp]

theorem relationship_data_fst_mem (locs : List Location) :
    ∀ p ∈ relationship_data locs, p.1 ∈ locs.map Location.id := by
  intro p hp
  simp only [relationship_data, List.mem_flatMap, List.mem_map] at hp
  obtain ⟨loc, hloc, s, _, rfl⟩ := hp
  exact List.mem_map.mpr ⟨loc, hloc, rfl⟩

/-! ### Helper lemmas: the sensors table -/

theorem insertOrIgnoreSensors_suffix :
    ∀ (vals tbl : List (Int × String)), ∃ ext, insertOrIgnoreSensors vals tbl = tbl ++ ext := by
  intro vals
  induction vals with
  | nil => intro tbl; exact ⟨[], by simp [insertOrIgnoreSensors]⟩
  | cons v vals ih =>
    intro tbl
    by_cases hp : tbl.any (fun r => decide (r.1 = v.1))
    · obtain ⟨ext, hext⟩ := ih tbl
      exact ⟨ext, by simpa [insertOrIgnoreSensors, hp] using hext⟩
    · obtain ⟨ext, hext⟩ := ih (tbl ++ [v])
      refine ⟨v :: ext, ?_⟩
      simp only [insertOrIgnoreSensors, List.foldl_cons, if_neg hp] at hext ⊢
      simpa using hext

theorem insertOrIgnoreSensors_id_mem :
    ∀ (vals tbl : List (Int × String)) (v : Int × String), v ∈ vals →
      v.1 ∈ (insertOrIgnoreSensors vals tbl).map Prod.fst := by
  intro vals
  induction vals with
  | nil => intro _ _ h; cases h
  | cons w vals ih =>
    intro tbl v hv
    rcases List.mem_cons.mp hv with rfl | hv
    · by_cases hp : tbl.any (fun r => decide (r.1 = v.1))
      · simp only [List.any_eq_true, decide_eq_true_eq] at hp
        obtain ⟨r, hr, hrid⟩ := hp
        obtain ⟨ext, hext⟩ := insertOrIgnoreSensors_suffix vals tbl
        rw [insertOrIgnoreSensors, List.foldl_cons, if_pos]
        · rw [show List.foldl _ tbl vals = insertOrIgnoreSensors vals tbl from rfl, hext]
          exact List.mem_map.mpr ⟨r, List.mem_append_left _ hr, hrid⟩
        · simp only [List.any_eq_true, decide_eq_true_eq]
          exact ⟨r, hr, hrid⟩
      · obtain ⟨ext, hext⟩ := insertOrIgnoreSensors_suffix vals (tbl ++ [v])
        rw [insertOrIgnoreSensors, List.foldl_cons, if_neg hp]
        rw [show List.foldl _ (tbl ++ [v]) vals = insertOrIgnoreSensors vals (tbl ++ [v]) from rfl,
          hext]
        exact List.mem_map.mpr ⟨v, by simp, rfl⟩
    · by_cases hp : tbl.any (fun r => decide (r.1 = w.1)) <;>
        simp only [insertOrIgnoreSensors, List.foldl_cons, if_pos, if_neg, hp] <;>
        exact ih _ v hv

theorem insertOrIgnoreSensors_eq_of_present :
    ∀ (vals tbl : List (Int × String)),
      (∀ v ∈ vals, v.1 ∈ tbl.map Prod.fst) → insertOrIgnoreSensors vals tbl = tbl := by
  intro vals
  induction vals with
  | nil => intro tbl _; rfl
  | cons v vals ih =>
    intro tbl h
    have hv : v.1 ∈ tbl.map Prod.fst := h v (List.mem_cons_self v vals)
    obtain ⟨r, hr, hrid⟩ := List.mem_map.mp hv
    have hp : tbl.any (fun r => decide (r.1 = v.1)) = true := by
      simp only [List.any_eq_true, decide_eq_true_eq]
      exact ⟨r, hr, hrid⟩
    rw [insertOrIgnoreSensors, List.foldl_cons, if_pos hp]
    exact ih tbl (fun w hw => h w (List.mem_cons_of_mem v hw))

theorem insertOrIgnoreSensors_filter_untouched :
    ∀ (vals tbl : List (Int × String)) (sid : Int),
      (∀ v ∈ vals, v.1 ≠ sid) →
      (insertOrIgnoreSensors vals tbl).filter (fun r => decide (r.1 = sid))
        = tbl.filter (fun r => decide (r.1 = sid)) := by
  intro vals
  induction vals with
  | nil => intro tbl _ _; rfl
  | cons v vals ih =>
    intro tbl sid h
    have hv : v.1 ≠ sid := h v (List.mem_cons_self v vals)
    by_cases hp : tbl.any (fun r => decide (r.1 = v.1))
    · rw [insertOrIgnoreSensors, List.foldl_cons, if_pos hp]
      exact ih tbl sid (fun w hw => h w (List.mem_cons_of_mem v hw))
    · rw [insertOrIgnoreSensors, List.foldl_cons, if_neg hp,
        show List.foldl _ (tbl ++ [v]) vals = insertOrIgnoreSensors vals (tbl ++ [v]) from rfl,
        ih (tbl ++ [v]) sid (fun w hw => h w (List.mem_cons_of_mem v hw))]
      simp [List.filter_append, hv]

theorem insertOrIgnoreSensors_filter_fresh :
    ∀ (vals tbl : List (Int × String)) (sid : Int),
      (vals.map Prod.fst).Nodup → (∀ r ∈ tbl, r.1 ≠ sid) →
      (insertOrIgnoreSensors vals tbl).filter (fun r => decide (r.1 = sid))
        = match vals.find? (fun v => decide (v.1 = sid)) with
          | some v => [v]
          | none => [] := by
  intro vals
  induction vals with
  | nil =>
    intro tbl sid _ htbl
    simp only [insertOrIgnoreSensors, List.foldl_nil, List.find?_nil]
    rw [List.filter_eq_nil_iff]
    intro r hr
    simp [htbl r hr]
  | cons v vals ih =>
    intro tbl sid hnd htbl
    by_cases hv : v.1 = sid
    · have hp : ¬ tbl.any (fun r => decide (r.1 = v.1)) = true := by
        simp only [List.any_eq_true, decide_eq_true_eq, not_exists]
        intro r
        rintro ⟨hr, hrid⟩
        exact htbl r hr (hv ▸ hrid)
      have hrest : ∀ w ∈ vals, w.1 ≠ sid := by
        intro w hw hws
        exact (List.nodup_cons.mp hnd).1
          (by rw [show v.1 = w.1 from hv.trans hws.symm]; exact List.mem_map.mpr ⟨w, hw, rfl⟩)
      rw [insertOrIgnoreSensors, List.foldl_cons, if_neg hp,
        show List.foldl _ (tbl ++ [v]) vals = insertOrIgnoreSensors vals (tbl ++ [v]) from rfl,
        insertOrIgnoreSensors_filter_untouched vals (tbl ++ [v]) sid hrest,
        List.filter_append, List.find?_cons_of_pos _ (by simp [hv])]
      have h1 : tbl.filter (fun r => decide (r.1 = sid)) = [] := by
        rw [List.filter_eq_nil_iff]; intro r hr; simp [htbl r hr]
      simp [h1, hv]
    · have hnd' := (List.nodup_cons.mp hnd).2
      rw [List.find?_cons_of_neg _ (by simp [hv])]
      by_cases hp : tbl.any (fun r => decide (r.1 = v.1))
      · rw [insertOrIgnoreSensors, List.foldl_cons, if_pos hp]
        exact ih tbl sid hnd' htbl
      · rw [insertOrIgnoreSensors, List.foldl_cons, if_neg hp,
          show List.foldl _ (tbl ++ [v]) vals = insertOrIgnoreSensors vals (tbl ++ [v]) from rfl]
        apply ih (tbl ++ [v]) sid hnd'
        intro r hr
        rcases List.mem_append.mp hr with hr | hr
        · exact htbl r hr
        · rw [List.mem_singleton.mp hr]; exact hv

theorem insertOrIgnoreSensors_length :
    ∀ (vals tbl : List (Int × String)), (vals.map Prod.fst).Nodup →
      (insertOrIgnoreSensors vals tbl).length
        = tbl.length + vals.countP (fun v => !(tbl.any (fun r => decide (r.1 = v.1)))) := by
  intro vals
  induction vals with
  | nil => intro tbl _; simp [insertOrIgnoreSensors]
  | cons v vals ih =>
    intro tbl hnd
    have hnd' := (List.nodup_cons.mp hnd).2
    by_cases hp : tbl.any (fun r => decide (r.1 = v.1))
    · rw [insertOrIgnoreSensors, List.foldl_cons, if_pos hp,
        show List.foldl _ tbl vals = insertOrIgnoreSensors vals tbl from rfl, ih tbl hnd',
        List.countP_cons]
      simp [hp]
    · rw [insertOrIgnoreSensors, List.foldl_cons, if_neg hp,
        show List.foldl _ (tbl ++ [v]) vals = insertOrIgnoreSensors vals (tbl ++ [v]) from rfl,
        ih (tbl ++ [v]) hnd', List.countP_cons]
      have hcong : vals.countP (fun w => !((tbl ++ [v]).any (fun r => decide (r.1 = w.1))))
          = vals.countP (fun w => !(tbl.any (fun r => decide (r.1 = w.1)))) := by
        apply List.countP_congr
        intro w hw
        have hvw : v.1 ≠ w.1 := fun he =>
          (List.nodup_cons.mp hnd).1 (he ▸ List.mem_map.mpr ⟨w, hw, rfl⟩)
        simp [List.any_append, hvw]
      simp only [hcong, List.length_append, List.length_singleton, hp]
      simp
      omega

/-! ### Helper lemmas: the sensor dict of the batch upsert -/

theorem mem_keys_dictInsert {κ α : Type} [DecidableEq κ] (x k : κ) (v : α)
    (d : List (κ × α)) :
    x ∈ (dictInsert k v d).map Prod.fst ↔ x = k ∨ x ∈ d.map Prod.fst := by
  induction d with
  | nil => simp [dictInsert]
  | cons f rest ih =>
    by_cases h : f.1 = k
    · subst h
      simp only [dictInsert, if_pos rfl, List.map_cons]
      constructor
      · rintro hx
        rcases List.mem_cons.mp hx with hx | hx
        · exact Or.inl hx
        · exact Or.inr (List.mem_cons_of_mem _ hx)
      · rintro (hx | hx)
        · exact hx ▸ List.mem_cons_self _ _
        · rcases List.mem_cons.mp hx with hx | hx
          · exact hx ▸ List.mem_cons_self _ _
          · exact List.mem_cons_of_mem _ hx
    · simp only [dictInsert, if_neg h, List.map_cons, List.mem_cons, ih]
      tauto

theorem keys_nodup_dictInsert {κ α : Type} [DecidableEq κ] (k : κ) (v : α)
    (d : List (κ × α)) (h : (d.map Prod.fst).Nodup) :
    ((dictInsert k v d).map Prod.fst).Nodup := by
  induction d with
  | nil => simp [dictInsert]
  | cons f rest ih =>
    rw [List.map_cons, List.nodup_cons] at h
    obtain ⟨hf, hrest⟩ := h
    by_cases hk : f.1 = k
    · simp only [dictInsert, if_pos hk, List.map_cons, List.nodup_cons]
      exact ⟨hf, hrest⟩
    · simp only [dictInsert, if_neg hk, List.map_cons, List.nodup_cons]
      refine ⟨?_, ih hrest⟩
      rw [mem_keys_dictInsert]
      rintro (he | he)
      · exact hk he
      · exact hf he

theorem dictInsert_forall {κ α : Type} [DecidableEq κ] (Q : κ × α → Prop) (k : κ) (v : α) :
    ∀ (d : List (κ × α)), (∀ e ∈ d, Q e) → Q (k, v) →
      ∀ e ∈ dictInsert k v d, Q e := by
  intro d
  induction d with
  | nil =>
    intro _ hv e he
    rw [List.mem_singleton.mp he]
    exact hv
  | cons f rest ih =>
    intro hd hv e he
    by_cases hk : f.1 = k
    · rw [dictInsert, if_pos hk] at he
      rcases List.mem_cons.mp he with rfl | he
      · have : ((f.1, v) : κ × α) = (k, v) := by rw [hk]
        exact this ▸ hv
      · exact hd e (List.mem_cons_of_mem _ he)
    · rw [dictInsert, if_neg hk] at he
      rcases List.mem_cons.mp he with rfl | he
      · exact hd f (List.mem_cons_self f rest)
      · exact ih (fun g hg => hd g (List.mem_cons_of_mem _ hg)) hv e he

theorem sensor_dict_foldl_forall (Q : Int × (Int × String) → Prop)
    (hstep : ∀ s : Sensor, Q (s.id, (s.id, s.name))) :
    ∀ (xs : List Sensor) (d : List (Int × (Int × String))), (∀ e ∈ d, Q e) →
      ∀ e ∈ xs.foldl (fun acc s => dictInsert s.id (s.id, s.name) acc) d, Q e := by
  intro xs
  induction xs with
  | nil => intro d hd e he; exact hd e he
  | cons s xs ih =>
    intro d hd e he
    rw [List.foldl_cons] at he
    exact ih _ (dictInsert_forall Q s.id (s.id, s.name) d hd (hstep s)) e he

theorem sensor_dict_entry_id (locs : List Location) :
    ∀ e ∈ sensor_dict locs, e.2.1 = e.1 :=
  sensor_dict_foldl_forall (fun e => e.2.1 = e.1) (fun _ => rfl)
    (locs.flatMap Location.available_sensors) [] (fun e he => by cases he)

theorem sensor_dict_keys_nodup (locs : List Location) :
    ((sensor_dict locs).map Prod.fst).Nodup := by
  rw [sensor_dict]
  generalize locs.flatMap Location.available_sensors = xs
  have h : ∀ (xs : List Sensor) (d : List (Int × (Int × String))),
      (d.map Prod.fst).Nodup →
      ((xs.foldl (fun acc s => dictInsert s.id (s.id, s.name) acc) d).map Prod.fst).Nodup := by
    intro xs
    induction xs with
    | nil => intro d hd; exact hd
    | cons s xs ih =>
      intro d hd
      rw [List.foldl_cons]
      exact ih _ (keys_nodup_dictInsert s.id (s.id, s.name) d hd)
  exact h xs [] (by simp)

theorem find?_map_snd :
    ∀ (d : List (Int × (Int × String))) (sid : Int), (∀ e ∈ d, e.2.1 = e.1) →
      (d.map Prod.snd).find? (fun v => decide (v.1 = sid))
        = (d.find? (fun e => decide (e.1 = sid))).map Prod.snd := by
  intro d
  induction d with
  | nil => intro _ _; rfl
  | cons e rest ih =>
    intro sid hq
    have he : e.2.1 = e.1 := hq e (List.mem_cons_self e rest)
    by_cases h : e.1 = sid
    · rw [List.map_cons, List.find?_cons_of_pos _ (by simp [he, h]),
        List.find?_cons_of_pos _ (by simp [h])]
      rfl
    · rw [List.map_cons, List.find?_cons_of_neg _ (by simp [he, h]),
        List.find?_cons_of_neg _ (by simp [h]),
        ih sid (fun f hf => hq f (List.mem_cons_of_mem _ hf))]

/-! ### Helper lemmas: the locations table -/

theorem replaceLocationRow_map_id (row : LocationRow) :
    ∀ t : List LocationRow, (replaceLocationRow row t).map LocationRow.id
      = if row.id ∈ t.map LocationRow.id then t.map LocationRow.id
        else t.map LocationRow.id ++ [row.id] := by
  intro t
  induction t with
  | nil => simp [replaceLocationRow]
  | cons r rs ih =>
    by_cases h : r.id = row.id
    · have hm : row.id ∈ (r :: rs).map LocationRow.id := by
        rw [List.map_cons]
        exact List.mem_cons.mpr (Or.inl h.symm)
      have hrep : replaceLocationRow row (r :: rs) = row :: rs := by
        simp [replaceLocationRow, h]
      rw [hrep, if_pos hm, List.map_cons, List.map_cons, h]
    · have hne : row.id ≠ r.id := fun he => h he.symm
      simp only [replaceLocationRow, if_neg h, List.map_cons, ih]
      by_cases hm : row.id ∈ rs.map LocationRow.id
      · simp [hm, List.mem_cons, hne]
      · simp [hm, List.mem_cons, hne]

theorem foldl_replace_mono :
    ∀ (rows : List LocationRow) (t : List LocationRow) (x : Int),
      x ∈ t.map LocationRow.id →
      x ∈ ((rows.foldl (fun t row => replaceLocationRow row t) t).map LocationRow.id) := by
  intro rows
  induction rows with
  | nil => intro t x h; exact h
  | cons row rows ih =>
    intro t x h
    rw [List.foldl_cons]
    apply ih
    rw [replaceLocationRow_map_id]
    by_cases hm : row.id ∈ t.map LocationRow.id
    · simpa [hm] using h
    · simp only [if_neg hm]
      exact List.mem_append_left _ h

theorem foldl_replace_id_mem :
    ∀ (rows : List LocationRow) (t : List LocationRow) (r : LocationRow), r ∈ rows →
      r.id ∈ ((rows.foldl (fun t row => replaceLocationRow row t) t).map LocationRow.id) := by
  intro rows
  induction rows with
  | nil => intro _ _ h; cases h
  | cons row rows ih =>
    intro t r hr
    rw [List.foldl_cons]
    rcases List.mem_cons.mp hr with rfl | hr
    · apply foldl_replace_mono
      rw [replaceLocationRow_map_id]
      by_cases h : r.id ∈ t.map LocationRow.id <;> simp [h]
    · exact ih _ r hr

theorem foldl_replace_map_id_of_present :
    ∀ (rows : List LocationRow) (t : List LocationRow),
      (∀ r ∈ rows, r.id ∈ t.map LocationRow.id) →
      ((rows.foldl (fun t row => replaceLocationRow row t) t).map LocationRow.id)
        = t.map LocationRow.id := by
  intro rows
  induction rows with
  | nil => intro t _; rfl
  | cons row rows ih =>
    intro t h
    rw [List.foldl_cons]
    have h1 : row.id ∈ t.map LocationRow.id := h row (List.mem_cons_self row rows)
    have hrep : (replaceLocationRow row t).map LocationRow.id = t.map LocationRow.id := by
      rw [replaceLocationRow_map_id, if_pos h1]
    rw [ih (replaceLocationRow row t)
      (fun r hr => by rw [hrep]; exact h r (List.mem_cons_of_mem _ hr)), hrep]

/-! ### Helper lemmas: rounding -/

theorem roundHalfEven_nonneg (q : ℚ) (h : 0 ≤ q) : 0 ≤ roundHalfEven q := by
  have hf : (0:ℤ) ≤ Int.floor q := Int.floor_nonneg.mpr h
  simp only [roundHalfEven]
  split
  · exact hf
  · split
    · omega
    · split
      · exact hf
      · omega

theorem round3_nonneg (q : ℚ) (h : 0 ≤ q) : 0 ≤ round3 q := by
  rw [round3]
  have h1 : (0:ℤ) ≤ roundHalfEven (q * 1000) :=
    roundHalfEven_nonneg _ (mul_nonneg h (by norm_num))
  exact div_nonneg (by exact_mod_cast h1) (by norm_num)

theorem round3_mul_1000 (q : ℚ) : ∃ n : ℤ, round3 q * 1000 = n := by
  refine ⟨roundHalfEven (q * 1000), ?_⟩
  rw [round3, div_mul_cancel₀]
  norm_num

/-! ### Concrete fixtures -/

/-- The spec's outlier example: values [10,11,9,10,12,11,9,10,1000]. -/
def ex9 : List Sample :=
  [⟨1, 10⟩, ⟨2, 11⟩, ⟨3, 9⟩, ⟨4, 10⟩, ⟨5, 12⟩, ⟨6, 11⟩, ⟨7, 9⟩, ⟨8, 10⟩, ⟨9, 1000⟩]

/-- Twelve raw points of which the three 1000s are IQR outliers: nine cleaned
points remain. -/
def ex12 : List Sample :=
  [⟨1, 10⟩, ⟨2, 10⟩, ⟨3, 10⟩, ⟨4, 10⟩, ⟨5, 10⟩, ⟨6, 10⟩, ⟨7, 10⟩, ⟨8, 10⟩, ⟨9, 10⟩,
   ⟨10, 1000⟩, ⟨11, 1000⟩, ⟨12, 1000⟩]

/-- A stand-in for the fitted Prophet model: one forecast row per horizon
hour. -/
def model0 : List Sample → Nat → List ForecastRow := fun _ h =>
  (List.range h).map (fun i => ⟨Int.ofNat i, 1, some 1, some 1⟩)

/-- Ten samples of constant value 10 (the degenerate constant-valued series
the spec declares valid). -/
def data10 : List Sample :=
  [⟨1, 10⟩, ⟨2, 10⟩, ⟨3, 10⟩, ⟨4, 10⟩, ⟨5, 10⟩, ⟨6, 10⟩, ⟨7, 10⟩, ⟨8, 10⟩, ⟨9, 10⟩, ⟨10, 10⟩]

/-- Nine samples (just under the minimum). -/
def data9 : List Sample :=
  [⟨1, 10⟩, ⟨2, 10⟩, ⟨3, 10⟩, ⟨4, 10⟩, ⟨5, 10⟩, ⟨6, 10⟩, ⟨7, 10⟩, ⟨8, 10⟩, ⟨9, 10⟩]

/-! ### C6: the outlier filter -/

/-- C6: with fewer than 3 samples the filter passes everything through
unchanged; with 3 or more, exactly the samples whose value lies in
[max 0 (Q1 − 1.5·IQR), Q3 + 1.5·IQR] survive (Q1, Q3 the 0.25/0.75
pandas quantiles of the group's values); and on the spec's example
[10,11,9,10,12,11,9,10,1000] the value 1000 is excluded. -/
theorem c6_outlier_filter :
    (∀ df : List Sample, df.length < 3 → remove_outliers df = df) ∧
    (∀ df : List Sample, 3 ≤ df.length → ∀ s : Sample,
      s ∈ remove_outliers df ↔
        s ∈ df ∧
        max 0 (pandasQuantile (df.map Sample.value) 1 4
            - 3/2 * (pandasQuantile (df.map Sample.value) 3 4
              - pandasQuantile (df.map Sample.value) 1 4)) ≤ s.value ∧
        s.value ≤ pandasQuantile (df.map Sample.value) 3 4
            + 3/2 * (pandasQuantile (df.map Sample.value) 3 4
              - pandasQuantile (df.map Sample.value) 1 4)) ∧
    (remove_outliers ex9).map Sample.value = [10, 11, 9, 10, 12, 11, 9, 10] := by
  refine ⟨?_, ?_, ?_⟩
  · intro df h
    rw [remove_outliers, if_pos h]
  · intro df h s
    rw [remove_outliers, if_neg (Nat.not_lt.mpr h)]
    simp only [List.mem_filter, Bool.and_eq_true, decide_eq_true_eq, and_assoc]
  · norm_num [remove_outliers, pandasQuantile, ex9, List.insertionSort,
      List.orderedInsert, List.filter]

/-- Witness for C6 at concrete inputs: a 2-point group passes through
unfiltered regardless of spread, and membership of the sample (1, 10) in the
cleaned spec example follows from the bounds. -/
theorem c6_outlier_filter_witness :
    remove_outliers [Sample.mk 1 5, Sample.mk 2 500] = [Sample.mk 1 5, Sample.mk 2 500] ∧
    (Sample.mk 1 10 ∈ remove_outliers ex9 ↔
      Sample.mk 1 10 ∈ ex9 ∧
      max 0 (pandasQuantile (ex9.map Sample.value) 1 4
          - 3/2 * (pandasQuantile (ex9.map Sample.value) 3 4
            - pandasQuantile (ex9.map Sample.value) 1 4)) ≤ (Sample.mk 1 10).value ∧
      (Sample.mk 1 10).value ≤ pandasQuantile (ex9.map Sample.value) 3 4
          + 3/2 * (pandasQuantile (ex9.map Sample.value) 3 4
            - pandasQuantile (ex9.map Sample.value) 1 4)) :=
  ⟨c6_outlier_filter.1 _ (by norm_num),
   c6_outlier_filter.2.1 ex9 (by norm_num [ex9]) (Sample.mk 1 10)⟩

/-! ### C3: the insufficient-data guard -/

/-- C3 (amended): the forecast returns `none` for every input with fewer
than 10 raw (pre-cleaning) data points, and for an empty prepared series
after cleaning.  The 10-point minimum is checked on the raw series before
outlier removal. -/
theorem c3_insufficient_data (model : List Sample → Nat → List ForecastRow)
    (data : List Sample) (pname punit : String) (hours : Nat) (conf : ℚ) :
    (data.length < 10 →
      predict_parameter_from_data model data pname punit hours conf = none) ∧
    (prepare_prophet_data (remove_outliers data) = [] →
      predict_parameter_from_data model data pname punit hours conf = none) := by
  constructor
  · intro h
    simp only [predict_parameter_from_data, min_data_points]
    rw [if_pos h]
  · intro h
    simp only [predict_parameter_from_data, min_data_points]
    by_cases hl : data.length < 10
    · rw [if_pos hl]
    · rw [if_neg hl, if_pos (by rw [h]; rfl)]

/-- Witness for C3: a 9-point series yields no prediction. -/
theorem c3_insufficient_data_witness :
    predict_parameter_from_data model0 data9 "pm25" "ug" 24 (4/5) = none :=
  (c3_insufficient_data model0 data9 "pm25" "ug" 24 (4/5)).1 (by norm_num [data9])

/-- Counterexample to C3 as stated: `ex12` has 12 raw points but only 9
cleaned points, yet the forecast still produces a prediction — the 10-point
minimum is applied before outlier filtering, not to the cleaned series. -/
theorem c3_counterexample :
    (prepare_prophet_data (remove_outliers ex12)).length = 9 ∧
    (predict_parameter_from_data model0 ex12 "pm25" "ug" 24 (4/5)).isSome = true := by
  constructor
  · norm_num [prepare_prophet_data, remove_outliers, pandasQuantile, ex12,
      List.insertionSort, List.orderedInsert, List.filter]
  · norm_num [predict_parameter_from_data, min_data_points, ex12, prepare_prophet_data,
      remove_outliers, pandasQuantile, List.insertionSort, List.orderedInsert, List.filter]

/-! ### C7: forecast post-processing -/

/-- C7: whenever a prediction is produced, every prediction point's value
and present bounds are ≥ 0 and are integer multiples of 1/1000 (rounded to
3 decimal places), and `training_data_points` equals the length of the
prepared cleaned series that was fitted. -/
theorem c7_forecast_postprocessing (model : List Sample → Nat → List ForecastRow)
    (data : List Sample) (pname punit : String) (hours : Nat) (conf : ℚ)
    (p : ParameterPrediction)
    (h : predict_parameter_from_data model data pname punit hours conf = some p) :
    (∀ pt ∈ p.predictions,
      0 ≤ pt.predicted_value ∧ (∃ n : ℤ, pt.predicted_value * 1000 = n) ∧
      (∀ lb, pt.lower_bound = some lb → 0 ≤ lb ∧ ∃ n : ℤ, lb * 1000 = n) ∧
      (∀ ub, pt.upper_bound = some ub → 0 ≤ ub ∧ ∃ n : ℤ, ub * 1000 = n)) ∧
    p.training_data_points = (prepare_prophet_data (remove_outliers data)).length := by
  simp only [predict_parameter_from_data] at h
  by_cases h10 : data.length < min_data_points
  · rw [if_pos h10] at h; cases h
  · rw [if_neg h10] at h
    by_cases hemp : (prepare_prophet_data (remove_outliers data)).isEmpty = true
    · rw [if_pos hemp] at h; cases h
    · rw [if_neg hemp] at h
      obtain rfl : _ = p := (Option.some.injEq _ _).mp h
      constructor
      · intro pt hpt
        simp only [extract_predictions, List.mem_map] at hpt
        obtain ⟨row, _, rfl⟩ := hpt
        refine ⟨round3_nonneg _ (le_max_left 0 _), round3_mul_1000 _, ?_, ?_⟩
        · intro lb hlb
          simp only [Option.map_eq_some'] at hlb
          obtain ⟨l, _, rfl⟩ := hlb
          exact ⟨round3_nonneg _ (le_max_left 0 _), round3_mul_1000 _⟩
        · intro ub hub
          simp only [Option.map_eq_some'] at hub
          obtain ⟨u, _, rfl⟩ := hub
          exact ⟨round3_nonneg _ (le_max_left 0 _), round3_mul_1000 _⟩
      · rfl

/-- Witness for C7: the constant 10-point series is accepted and its
reported training count is the cleaned length. -/
theorem c7_forecast_postprocessing_witness :
    (ParameterPrediction.mk "pm25" "ug" "Prophet" 0 [] (4/5) 10).training_data_points
      = (prepare_prophet_data (remove_outliers data10)).length := by
  have h : predict_parameter_from_data model0 data10 "pm25" "ug" 0 (4/5)
      = some (ParameterPrediction.mk "pm25" "ug" "Prophet" 0 [] (4/5) 10) := by
    norm_num [predict_parameter_from_data, min_data_points, data10, prepare_prophet_data,
      remove_outliers, pandasQuantile, List.insertionSort, List.orderedInsert, List.filter,
      extract_predictions, tailRows, model0]
  exact (c7_forecast_postprocessing model0 data10 "pm25" "ug" 0 (4/5) _ h).2

/-! ### C9: ordering of the measurement series -/

/-- C9 (amended): the DataFrame built from a raw measurements response is a
permutation of the raw rows (duplicate timestamps are retained, not
collapsed) sorted by non-decreasing — not strictly increasing — timestamp,
and cleaning preserves that non-decreasing order. -/
theorem c9_series_ordering (resp : MeasurementsResponse) :
    List.Perm (measurements_to_dataframe resp)
      (resp.results.map (fun m => Sample.mk m.datetime_to m.value)) ∧
    List.Sorted sampleLe (measurements_to_dataframe resp) ∧
    List.Sorted sampleLe
      (prepare_prophet_data (remove_outliers (measurements_to_dataframe resp))) := by
  refine ⟨List.perm_insertionSort _ _, List.sorted_insertionSort _ _, ?_⟩
  have hs : List.Sorted sampleLe (measurements_to_dataframe resp) :=
    List.sorted_insertionSort _ _
  rw [prepare_prophet_data, remove_outliers]
  split
  · exact hs
  · exact List.Pairwise.filter _ hs

/-- A response with two raw samples at the same timestamp. -/
def c9resp : MeasurementsResponse :=
  ⟨[⟨⟨"pm25", "ug"⟩, 10, 1⟩, ⟨⟨"pm25", "ug"⟩, 10, 2⟩,
    ⟨⟨"pm25", "ug"⟩, 10, 2⟩, ⟨⟨"pm25", "ug"⟩, 10, 3⟩]⟩

/-- Counterexample to C9 as stated: duplicate timestamps are not collapsed —
all four raw samples (two of them at timestamp 2) survive into the cleaned
series, whose timestamps are therefore not strictly increasing. -/
theorem c9_counterexample :
    (prepare_prophet_data (remove_outliers (measurements_to_dataframe c9resp))).map
        Sample.timestamp = [1, 2, 2, 3] ∧
    ¬ List.Chain' (· < ·)
      ((prepare_prophet_data (remove_outliers (measurements_to_dataframe c9resp))).map
        Sample.timestamp) := by
  have h : (prepare_prophet_data (remove_outliers (measurements_to_dataframe c9resp))).map
      Sample.timestamp = [1, 2, 2, 3] := by
    norm_num [prepare_prophet_data, remove_outliers, measurements_to_dataframe, c9resp,
      pandasQuantile, List.insertionSort, List.orderedInsert, sampleLe, List.filter]
  refine ⟨h, ?_⟩
  rw [h]
  simp [List.chain'_cons]

/-! ### Helper lemmas: the per-sensor aggregation loop -/

theorem processSensors_all_none :
    ∀ (sensors : List Sensor) (fetch : Int → Except String MeasurementsResponse)
      (init : List (String × ParameterEntry)),
      (∀ s ∈ sensors, sensorContribution fetch s = none) →
      processSensors fetch init sensors = init := by
  intro sensors
  induction sensors with
  | nil => intro _ _ _; rfl
  | cons s ss ih =>
    intro fetch init h
    rw [processSensors, List.foldl_cons, h s (List.mem_cons_self s ss)]
    exact ih fetch init (fun w hw => h w (List.mem_cons_of_mem s hw))

theorem processSensors_skip_failures :
    ∀ (sensors : List Sensor) (fetch : Int → Except String MeasurementsResponse)
      (init : List (String × ParameterEntry)),
      processSensors fetch init sensors
        = processSensors fetch init
            (sensors.filter (fun s => (fetch s.id).toOption.isSome)) := by
  intro sensors
  induction sensors with
  | nil => intro _ _; rfl
  | cons s ss ih =>
    intro fetch init
    cases hf : fetch s.id with
    | error e =>
      have hcontrib : sensorContribution fetch s = none := by
        rw [sensorContribution, hf]
      rw [processSensors, List.foldl_cons, hcontrib,
        List.filter_cons_of_neg (by simp [hf, Except.toOption])]
      exact ih fetch init
    | ok resp =>
      rw [processSensors, List.foldl_cons,
        List.filter_cons_of_pos (by simp [hf, Except.toOption]),
        processSensors, List.foldl_cons]
      cases hc : sensorContribution fetch s with
      | none => exact ih fetch init
      | some kv => exact ih fetch (dictInsert kv.1 kv.2 init)

theorem processSensors_last_contribution :
    ∀ (sensors : List Sensor) (fetch : Int → Except String MeasurementsResponse)
      (init : List (String × ParameterEntry)) (n : String) (e : String × ParameterEntry),
      ((sensors.filterMap (sensorContribution fetch)).filter
          (fun kv => decide (kv.1 = n))).getLast? = some e →
      dictGet n (processSensors fetch init sensors) = some e.2 := by
  intro sensors
  induction sensors using List.reverseRecOn with
  | nil => intro fetch init n e h; simp at h
  | append_singleton ss s ih =>
    intro fetch init n e h
    have hstep : processSensors fetch init (ss ++ [s])
        = match sensorContribution fetch s with
          | none => processSensors fetch init ss
          | some kv => dictInsert kv.1 kv.2 (processSensors fetch init ss) := by
      rw [processSensors, List.foldl_append, List.foldl_cons, List.foldl_nil, processSensors]
    rw [List.filterMap_append, List.filter_append] at h
    cases hc : sensorContribution fetch s with
    | none =>
      rw [hstep, hc]
      apply ih fetch init n e
      simpa [hc] using h
    | some kv =>
      rw [hstep, hc]
      by_cases hkn : kv.1 = n
      · have hlast :
            ((ss.filterMap (sensorContribution fetch)).filter (fun x => decide (x.1 = n))
              ++ ([s].filterMap (sensorContribution fetch)).filter
                  (fun x => decide (x.1 = n))).getLast? = some kv := by
          rw [show ([s].filterMap (sensorContribution fetch)).filter
              (fun x => decide (x.1 = n)) = [kv] from by simp [hc, hkn]]
          exact List.getLast?_concat _
        rw [h] at hlast
        obtain rfl := Option.some.injEq _ _ |>.mp hlast
        rw [dictGet_dictInsert, if_pos hkn.symm]
      · rw [dictGet_dictInsert, if_neg (fun hne => hkn hne.symm)]
        apply ih fetch init n e
        simpa [hc, hkn] using h

/-! ### C8: best-effort aggregation, no exceptions -/

/-- C8: the aggregation is total.  With zero stored sensors it returns an
empty parameters mapping plus a non-empty explanatory message; a failing
sensor is skipped, so the parameters are computed from exactly the sensors
whose fetch succeeded, and if every sensor fails the mapping is empty. -/
theorem c8_best_effort (db : DBState) (fetch : Int → Except String MeasurementsResponse)
    (location_id : Int) (dtF dtT : String) :
    (get_sensors_by_location db location_id = [] →
      (get_ground_data_by_location_id db fetch location_id dtF dtT).parameters = [] ∧
      ∃ m, (get_ground_data_by_location_id db fetch location_id dtF dtT).message = some m ∧
        m ≠ "") ∧
    ((∀ s ∈ get_sensors_by_location db location_id, ∃ e, fetch s.id = Except.error e) →
      (get_ground_data_by_location_id db fetch location_id dtF dtT).parameters = []) ∧
    (processSensors fetch [] (get_sensors_by_location db location_id)
      = processSensors fetch []
          ((get_sensors_by_location db location_id).filter
            (fun s => (fetch s.id).toOption.isSome))) := by
  refine ⟨?_, ?_, processSensors_skip_failures _ fetch []⟩
  · intro hnil
    simp only [get_ground_data_by_location_id, hnil]
    refine ⟨rfl, "No sensors found for location ID " ++ toString location_id, rfl, ?_⟩
    intro hemp
    have hlen := congrArg String.length hemp
    rw [String.length_append] at hlen
    have h33 : ("No sensors found for location ID ").length = 33 := rfl
    simp only [h33, String.length_empty] at hlen
    omega
  · intro hfail
    simp only [get_ground_data_by_location_id]
    by_cases hemp : (get_sensors_by_location db location_id).isEmpty
    · rw [if_pos hemp]
    · rw [if_neg hemp]
      exact processSensors_all_none _ fetch []
        (fun s hs => by obtain ⟨e, he⟩ := hfail s hs; rw [sensorContribution, he])

/-- Witness for C8: a store with no sensors for the requested location
yields the empty mapping and the explanatory message. -/
theorem c8_best_effort_witness :
    (get_ground_data_by_location_id (DBState.mk [] [] []) (fun _ => Except.error "down")
        7 "a" "b").parameters = [] ∧
    ∃ m, (get_ground_data_by_location_id (DBState.mk [] [] []) (fun _ => Except.error "down")
        7 "a" "b").message = some m ∧ m ≠ "" :=
  (c8_best_effort (DBState.mk [] [] []) (fun _ => Except.error "down") 7 "a" "b").1 rfl

/-! ### C10: later sensors overwrite earlier entries per parameter name -/

/-- C10: the entry finally stored under a parameter name is the one
contributed by the last sensor, in iteration order, whose fetch succeeded
with a non-empty result list for that name — later contributions silently
overwrite earlier ones. -/
theorem c10_last_sensor_wins (db : DBState) (fetch : Int → Except String MeasurementsResponse)
    (location_id : Int) (dtF dtT : String) (n : String) (e : String × ParameterEntry)
    (h : (((get_sensors_by_location db location_id).filterMap (sensorContribution fetch)).filter
        (fun kv => decide (kv.1 = n))).getLast? = some e) :
    dictGet n (get_ground_data_by_location_id db fetch location_id dtF dtT).parameters
      = some e.2 := by
  simp only [get_ground_data_by_location_id]
  by_cases hemp : (get_sensors_by_location db location_id).isEmpty
  · rw [List.isEmpty_iff] at hemp
    rw [hemp] at h
    simp at h
  · rw [if_neg hemp]
    exact processSensors_last_contribution _ fetch [] n e h

/-- A store with one location (id 100) owning sensors 1 and 2, and a fetch
where both sensors report parameter "pm25" with different values. -/
def db2 : DBState := ⟨[⟨100, "L", 0, 0, none⟩], [(1, "s1"), (2, "s2")], [(100, 1), (100, 2)]⟩

def fetch2 : Int → Except String MeasurementsResponse := fun i =>
  if i = 1 then Except.ok ⟨[⟨⟨"pm25", "ug"⟩, 10, 1⟩]⟩
  else if i = 2 then Except.ok ⟨[⟨⟨"pm25", "ug"⟩, 20, 2⟩]⟩
  else Except.error "unknown sensor"

/-- Witness for C10: with sensors 1 then 2 both reporting "pm25", the stored
entry is sensor 2's (value 20), the last one processed. -/
theorem c10_last_sensor_wins_witness :
    dictGet "pm25" (get_ground_data_by_location_id db2 fetch2 100 "a" "b").parameters
      = some ⟨20, "ug", 2, "s2", 2⟩ :=
  c10_last_sensor_wins db2 fetch2 100 "a" "b" "pm25" ("pm25", ⟨20, "ug", 2, "s2", 2⟩) rfl

/-! ### C2: the reported "latest" measurement -/

/-- C2 (amended): the reported latest measurement for a contributing sensor
is the first element of the raw response (`results[0]`), carried over
verbatim; it is the most recent sample by timestamp only when the response
is sorted newest-first. -/
theorem c2_latest_measurement (db : DBState) (fetch : Int → Except String MeasurementsResponse)
    (location_id : Int) (dtF dtT : String) (s : Sensor) (resp : MeasurementsResponse)
    (m : MeasurementResult) (rest : List MeasurementResult)
    (hs : get_sensors_by_location db location_id = [s])
    (hf : fetch s.id = Except.ok resp)
    (hr : resp.results = m :: rest) :
    dictGet m.parameter.name
        (get_ground_data_by_location_id db fetch location_id dtF dtT).parameters
      = some ⟨m.value, m.parameter.units, s.id, s.name, m.datetime_to⟩ ∧
    (List.Sorted (fun a b : MeasurementResult => b.datetime_to ≤ a.datetime_to) resp.results →
      ∀ m2 ∈ resp.results, m2.datetime_to ≤ m.datetime_to) := by
  constructor
  · simp only [get_ground_data_by_location_id, hs]
    rw [if_neg (by simp)]
    simp only [processSensors, List.foldl_cons, List.foldl_nil, sensorContribution, hf, hr]
    rw [dictGet_dictInsert, if_pos rfl]
  · intro hsorted m2 hm2
    rw [hr] at hsorted hm2
    rcases List.mem_cons.mp hm2 with rfl | hm2
    · exact le_refl _
    · exact List.rel_of_sorted_cons hsorted m2 hm2

/-- A store with one location (id 100) owning sensor 1, whose response lists
an older sample (value 10, timestamp 1) before a newer one (value 20,
timestamp 2). -/
def c2db : DBState := ⟨[⟨100, "L", 0, 0, none⟩], [(1, "s1")], [(100, 1)]⟩

def c2resp : MeasurementsResponse :=
  ⟨[⟨⟨"pm25", "ug"⟩, 10, 1⟩, ⟨⟨"pm25", "ug"⟩, 20, 2⟩]⟩

def c2fetch : Int → Except String MeasurementsResponse := fun _ => Except.ok c2resp

/-- Counterexample to C2 as stated: the aggregation reports value 10 at
timestamp 1 (the response's first element), while the most recent sample by
timestamp in the same raw response is value 20 at timestamp 2. -/
theorem c2_counterexample :
    dictGet "pm25" (get_ground_data_by_location_id c2db c2fetch 100 "f" "t").parameters
      = some ⟨10, "ug", 1, "s1", 1⟩ ∧
    specMostRecentSample c2resp.results = some ⟨⟨"pm25", "ug"⟩, 20, 2⟩ ∧
    (10 : ℚ) ≠ 20 := by
  refine ⟨rfl, ?_, by norm_num⟩
  norm_num [specMostRecentSample, c2resp]

/-- Witness for C2 at the concrete store and fetch. -/
theorem c2_latest_measurement_witness :
    dictGet "pm25" (get_ground_data_by_location_id c2db c2fetch 100 "f" "t").parameters
      = some ⟨10, "ug", 1, "s1", 1⟩ :=
  (c2_latest_measurement c2db c2fetch 100 "f" "t" ⟨1, "s1"⟩ c2resp
    ⟨⟨"pm25", "ug"⟩, 10, 1⟩ [⟨⟨"pm25", "ug"⟩, 20, 2⟩] rfl rfl rfl).1

/-! ### C4: idempotence of the batch upsert -/

/-- C4: replaying the identical batch on the state produced by a successful
first call succeeds and leaves the location row count, the sensors table,
and the relationship rows unchanged. -/
theorem c4_idempotent_upsert (locs : List Location) (db db1 : DBState)
    (h : store_locations_batch locs db = some db1) :
    ∃ db2, store_locations_batch locs db1 = some db2 ∧
      db2.locations.length = db1.locations.length ∧
      db2.sensors = db1.sensors ∧
      db2.location_sensors = db1.location_sensors := by
  simp only [store_locations_batch, Option.map_eq_some'] at h
  obtain ⟨rels, hrels, hdb1⟩ := h
  subst hdb1
  have hsound := insertRelationships_sound _ _ _ hrels
  have hdel : deleteRelationships (locs.map Location.id) rels
      = deleteRelationships (locs.map Location.id) db.location_sensors := by
    rw [hsound, deleteRelationships_append, deleteRelationships_idem,
      deleteRelationships_eq_nil _ _ (relationship_data_fst_mem locs), List.append_nil]
  have hsens : insertOrIgnoreSensors ((sensor_dict locs).map Prod.snd)
        (insertOrIgnoreSensors ((sensor_dict locs).map Prod.snd) db.sensors)
      = insertOrIgnoreSensors ((sensor_dict locs).map Prod.snd) db.sensors :=
    insertOrIgnoreSensors_eq_of_present _ _
      (fun v hv => insertOrIgnoreSensors_id_mem _ db.sensors v hv)
  have hlocs : (((locs.map locationToRow).foldl (fun t r => replaceLocationRow r t)
        ((locs.map locationToRow).foldl (fun t r => replaceLocationRow r t)
          db.locations)).map LocationRow.id)
      = (((locs.map locationToRow).foldl (fun t r => replaceLocationRow r t)
          db.locations).map LocationRow.id) :=
    foldl_replace_map_id_of_present _ _
      (fun r hr => foldl_replace_id_mem _ db.locations r hr)
  refine ⟨⟨(locs.map locationToRow).foldl (fun t r => replaceLocationRow r t)
      ((locs.map locationToRow).foldl (fun t r => replaceLocationRow r t) db.locations),
    insertOrIgnoreSensors ((sensor_dict locs).map Prod.snd)
      (insertOrIgnoreSensors ((sensor_dict locs).map Prod.snd) db.sensors),
    rels⟩, ?_, ?_, hsens, rfl⟩
  · simp only [store_locations_batch]
    rw [hdel, hrels]
    rfl
  · have hlen := congrArg List.length hlocs
    simpa using hlen

/-- Witness for C4: replaying a concrete one-location batch on the state its
first upsert produced changes nothing. -/
theorem c4_idempotent_upsert_witness :
    ∃ db2, store_locations_batch
        [Location.mk 1 "loc1" 0 0 [Sensor.mk 5 "A"] none]
        (DBState.mk [LocationRow.mk 1 "loc1" 0 0 none] [(5, "A")] [(1, 5)]) = some db2 ∧
      db2.locations.length
        = (DBState.mk [LocationRow.mk 1 "loc1" 0 0 none] [(5, "A")] [(1, 5)]).locations.length ∧
      db2.sensors = (DBState.mk [LocationRow.mk 1 "loc1" 0 0 none] [(5, "A")] [(1, 5)]).sensors ∧
      db2.location_sensors
        = (DBState.mk [LocationRow.mk 1 "loc1" 0 0 none] [(5, "A")] [(1, 5)]).location_sensors :=
  c4_idempotent_upsert [Location.mk 1 "loc1" 0 0 [Sensor.mk 5 "A"] none]
    (DBState.mk [] [] []) _ rfl

/-! ### C1: cross-location sensor dedup in one batch -/

theorem sensor_dict_keys_mem (locs : List Location) :
    ∀ x ∈ (sensor_dict locs).map Prod.fst,
      x ∈ (locs.flatMap Location.available_sensors).map Sensor.id := by
  rw [sensor_dict]
  have h : ∀ (xs : List Sensor) (d : List (Int × (Int × String))) (x : Int),
      x ∈ (xs.foldl (fun acc s => dictInsert s.id (s.id, s.name) acc) d).map Prod.fst →
      x ∈ d.map Prod.fst ∨ x ∈ xs.map Sensor.id := by
    intro xs
    induction xs with
    | nil => intro d x hx; exact Or.inl hx
    | cons s ss ih =>
      intro d x hx
      rw [List.foldl_cons] at hx
      rcases ih _ x hx with hx | hx
      · rcases (mem_keys_dictInsert x s.id _ d).mp hx with rfl | hx
        · exact Or.inr (by simp)
        · exact Or.inl hx
      · refine Or.inr ?_
        rw [List.map_cons]
        exact List.mem_cons_of_mem _ hx
  intro x hx
  rcases h _ [] x hx with hx | hx
  · simp at hx
  · exact hx

theorem filter_eq_of_find?_nodup :
    ∀ (l : List (Int × String)) (sid : Int) (w : Int × String),
      (l.map Prod.fst).Nodup →
      l.find? (fun v => decide (v.1 = sid)) = some w →
      l.filter (fun v => decide (v.1 = sid)) = [w] := by
  intro l
  induction l with
  | nil => intro _ _ _ h; cases h
  | cons v l ih =>
    intro sid w hnd hf
    rw [List.map_cons, List.nodup_cons] at hnd
    by_cases hv : v.1 = sid
    · rw [List.find?_cons_of_pos _ (by simp [hv])] at hf
      obtain rfl := (Option.some.injEq _ _).mp hf
      rw [List.filter_cons_of_pos (by simp [hv])]
      have hrest : l.filter (fun u => decide (u.1 = sid)) = [] := by
        rw [List.filter_eq_nil_iff]
        intro u hu
        simp only [decide_eq_true_eq]
        intro hus
        exact hnd.1 (by rw [hv, ← hus]; exact List.mem_map.mpr ⟨u, hu, rfl⟩)
      rw [hrest]
    · rw [List.find?_cons_of_neg _ (by simp [hv])] at hf
      rw [List.filter_cons_of_neg (by simp [hv])]
      exact ih sid w hnd.2 hf

/-- C1 (amended): for a batch in which sensor id `sid` occurs (possibly
under several locations with different names) and `sid` is not yet stored,
a successful batch upsert stores exactly one sensor row for `sid`, named
after the LAST occurrence of `sid` in the batch (Python dict assignment
overwrites); when every other sensor id of the batch is already stored, the
sensor row count grows by exactly one. -/
theorem c1_batch_sensor_dedup (locs : List Location) (db db1 : DBState) (sid : Int)
    (hstore : store_locations_batch locs db = some db1)
    (hfresh : ∀ r ∈ db.sensors, r.1 ≠ sid)
    (hmem : sid ∈ (locs.flatMap Location.available_sensors).map Sensor.id) :
    (∃ s : Sensor,
      (locs.flatMap Location.available_sensors).reverse.find? (fun t => decide (t.id = sid))
        = some s ∧
      db1.sensors.filter (fun r => decide (r.1 = sid)) = [(sid, s.name)]) ∧
    ((∀ t ∈ locs.flatMap Location.available_sensors, t.id ≠ sid →
        ∃ r ∈ db.sensors, r.1 = t.id) →
      db1.sensors.length = db.sensors.length + 1) := by
  simp only [store_locations_batch, Option.map_eq_some'] at hstore
  obtain ⟨rels, hrels, hdb1⟩ := hstore
  subst hdb1
  obtain ⟨t0, hmem0, hid0⟩ := List.mem_map.mp hmem
  have hfindsome : ((locs.flatMap Location.available_sensors).reverse.find?
      (fun t => decide (t.id = sid))).isSome := by
    rw [List.find?_isSome]
    exact ⟨t0, List.mem_reverse.mpr hmem0, by simp [hid0]⟩
  obtain ⟨s, hfind⟩ := Option.isSome_iff_exists.mp hfindsome
  have hsid : s.id = sid := by simpa using List.find?_some hfind
  have hget : dictGet sid (sensor_dict locs) = some (s.id, s.name) := by
    rw [sensor_dict, dictGet_foldl_dictInsert Sensor.id (fun t => (t.id, t.name)) sid, hfind]
  have hvalsid : ((sensor_dict locs).map Prod.snd).map Prod.fst
      = (sensor_dict locs).map Prod.fst := by
    rw [List.map_map]
    exact List.map_congr_left (fun e he => sensor_dict_entry_id locs e he)
  have hnodup : (((sensor_dict locs).map Prod.snd).map Prod.fst).Nodup := by
    rw [hvalsid]
    exact sensor_dict_keys_nodup locs
  have hvfind : ((sensor_dict locs).map Prod.snd).find? (fun v => decide (v.1 = sid))
      = some (s.id, s.name) := by
    rw [find?_map_snd _ sid (sensor_dict_entry_id locs)]
    rw [dictGet] at hget
    obtain ⟨e, he1, he2⟩ := Option.map_eq_some'.mp hget
    rw [he1]
    simpa using he2
  refine ⟨⟨s, hfind, ?_⟩, ?_⟩
  · have hflt := insertOrIgnoreSensors_filter_fresh ((sensor_dict locs).map Prod.snd)
      db.sensors sid hnodup hfresh
    rw [hvfind] at hflt
    rw [hsid] at hflt
    exact hflt
  · intro hother
    have hlen := insertOrIgnoreSensors_length ((sensor_dict locs).map Prod.snd) db.sensors hnodup
    have hcong : ((sensor_dict locs).map Prod.snd).countP
          (fun v => !(db.sensors.any (fun r => decide (r.1 = v.1))))
        = ((sensor_dict locs).map Prod.snd).countP (fun v => decide (v.1 = sid)) := by
      apply List.countP_congr
      intro v hv
      by_cases hvs : v.1 = sid
      · have hany : db.sensors.any (fun r => decide (r.1 = v.1)) = false := by
          rw [List.any_eq_false]
          intro r hr
          simp only [decide_eq_true_eq]
          intro hrv
          exact hfresh r hr (hrv.trans hvs)
        rw [hany, hvs]
        simp
      · obtain ⟨e, he, hev⟩ := List.mem_map.mp hv
        have hkey : v.1 = e.1 := by rw [← hev]; exact sensor_dict_entry_id locs e he
        have hkeymem : e.1 ∈ (locs.flatMap Location.available_sensors).map Sensor.id :=
          sensor_dict_keys_mem locs e.1 (List.mem_map.mpr ⟨e, he, rfl⟩)
        obtain ⟨t, ht, htid⟩ := List.mem_map.mp hkeymem
        obtain ⟨r, hrmem, hrid⟩ := hother t ht (fun h5 => hvs (by rw [hkey, ← htid, h5]))
        have hany : db.sensors.any (fun r => decide (r.1 = v.1)) = true := by
          simp only [List.any_eq_true, decide_eq_true_eq]
          exact ⟨r, hrmem, by rw [hrid, htid, ← hkey]⟩
        rw [hany]
        simp [hvs]
    have hfilter : ((sensor_dict locs).map Prod.snd).filter (fun v => decide (v.1 = sid))
        = [(s.id, s.name)] :=
      filter_eq_of_find?_nodup _ sid _ hnodup hvfind
    show (insertOrIgnoreSensors ((sensor_dict locs).map Prod.snd) db.sensors).length
      = db.sensors.length + 1
    rw [hlen, hcong, List.countP_eq_length_filter, hfilter]
    rfl

/-- A batch where sensor id 5 appears under two locations with different
names ("A" first, "B" last). -/
def cbatch : List Location :=
  [⟨1, "loc1", 0, 0, [⟨5, "A"⟩], none⟩, ⟨2, "loc2", 0, 0, [⟨5, "B"⟩], none⟩]

/-- The state after upserting `cbatch` into an empty store. -/
def c1db1 : DBState :=
  ⟨[⟨1, "loc1", 0, 0, none⟩, ⟨2, "loc2", 0, 0, none⟩], [(5, "B")], [(1, 5), (2, 5)]⟩

/-- Counterexample to C1 as stated: on an empty store, the batch stores
sensor 5 under the name "B" of the location appearing LAST in the batch, not
the first location's "A". -/
theorem c1_counterexample :
    (store_locations_batch cbatch (DBState.mk [] [] [])).map DBState.sensors
      = some [(5, "B")] ∧ "B" ≠ "A" :=
  ⟨rfl, by decide⟩

/-- Witness for C1 at the concrete batch: one row for id 5, named from the
last occurrence, and the sensor count grows from 0 to 1. -/
theorem c1_batch_sensor_dedup_witness :
    (∃ s : Sensor,
      (cbatch.flatMap Location.available_sensors).reverse.find? (fun t => decide (t.id = 5))
        = some s ∧
      c1db1.sensors.filter (fun r => decide (r.1 = 5)) = [(5, s.name)]) ∧
    c1db1.sensors.length = (DBState.mk [] [] []).sensors.length + 1 := by
  have h := c1_batch_sensor_dedup cbatch (DBState.mk [] [] []) c1db1 5 rfl
    (fun r hr => absurd hr (List.not_mem_nil r)) (by decide)
  exact ⟨h.1, h.2 (by decide)⟩

/-! ### C5: relationship convergence -/

theorem find?_fst_of_mem :
    ∀ (tbl : List (Int × String)) (x : Int), x ∈ tbl.map Prod.fst →
      ∃ r, tbl.find? (fun r => decide (r.1 = x)) = some r ∧ r.1 = x := by
  intro tbl
  induction tbl with
  | nil => intro x hx; simp at hx
  | cons t rest ih =>
    intro x hx
    by_cases ht : t.1 = x
    · exact ⟨t, List.find?_cons_of_pos _ (by simp [ht]), ht⟩
    · rw [List.map_cons, List.mem_cons] at hx
      rcases hx with hx | hx
      · exact absurd hx.symm ht
      · obtain ⟨r, hr, hrx⟩ := ih x hx
        exact ⟨r, by rw [List.find?_cons_of_neg _ (by simp [ht])]; exact hr, hrx⟩

/-- C5: upserting location L with sensors {A,B} and then re-upserting it with
{B,C} leaves exactly B and C linked to L — the upsert deletes all of L's
relationship rows and reinserts the current set, so A is no longer linked. -/
theorem c5_relationship_convergence (db : DBState) (L : Location) (A B C : Sensor)
    (hAB : A.id ≠ B.id) (hBC : B.id ≠ C.id) (hAC : A.id ≠ C.id)
    (db1 db2 : DBState)
    (h1 : store_locations_batch [{ L with available_sensors := [A, B] }] db = some db1)
    (h2 : store_locations_batch [{ L with available_sensors := [B, C] }] db1 = some db2) :
    (get_sensors_by_location db2 L.id).map Sensor.id = [B.id, C.id] ∧
    A.id ∉ (get_sensors_by_location db2 L.id).map Sensor.id := by
  simp only [store_locations_batch, Option.map_eq_some'] at h1 h2
  obtain ⟨rels1, hrels1, hdb1⟩ := h1
  obtain ⟨rels2, hrels2, hdb2⟩ := h2
  have hdb1r : db1.location_sensors = rels1 := by rw [← hdb1]
  have hdb2r : db2.location_sensors = rels2 := by rw [← hdb2]
  have hdb2s : db2.sensors
      = insertOrIgnoreSensors
          ((sensor_dict [{ L with available_sensors := [B, C] }]).map Prod.snd)
          db1.sensors := by rw [← hdb2]
  have hrel1eq := insertRelationships_sound _ _ _ hrels1
  have hrel2eq := insertRelationships_sound _ _ _ hrels2
  have hrd1 : relationship_data [{ L with available_sensors := [A, B] }]
      = [(L.id, A.id), (L.id, B.id)] := rfl
  have hrd2 : relationship_data [{ L with available_sensors := [B, C] }]
      = [(L.id, B.id), (L.id, C.id)] := rfl
  have hids1 : List.map Location.id [{ L with available_sensors := [A, B] }] = [L.id] := rfl
  have hids2 : List.map Location.id [{ L with available_sensors := [B, C] }] = [L.id] := rfl
  rw [hrd1, hids1] at hrel1eq
  rw [hrd2, hids2, hdb1r, hrel1eq, deleteRelationships_append, deleteRelationships_idem,
    deleteRelationships_eq_nil [L.id] [(L.id, A.id), (L.id, B.id)] (by simp),
    List.append_nil] at hrel2eq
  have hsd2 : (sensor_dict [{ L with available_sensors := [B, C] }]).map Prod.snd
      = [(B.id, B.name), (C.id, C.name)] := by
    simp [sensor_dict, dictInsert, hBC]
  rw [hsd2] at hdb2s
  have hBmem : B.id ∈ db2.sensors.map Prod.fst := by
    rw [hdb2s]
    exact insertOrIgnoreSensors_id_mem _ _ (B.id, B.name) (by simp)
  have hCmem : C.id ∈ db2.sensors.map Prod.fst := by
    rw [hdb2s]
    exact insertOrIgnoreSensors_id_mem _ _ (C.id, C.name) (by simp)
  obtain ⟨rB, hrBfind, hrBid⟩ := find?_fst_of_mem db2.sensors B.id hBmem
  obtain ⟨rC, hrCfind, hrCid⟩ := find?_fst_of_mem db2.sensors C.id hCmem
  have heq : (get_sensors_by_location db2 L.id).map Sensor.id = [B.id, C.id] := by
    simp only [get_sensors_by_location]
    rw [hdb2r, hrel2eq, List.filterMap_append]
    have hnil : (deleteRelationships [L.id] db.location_sensors).filterMap
        (fun p => if p.1 = L.id then
            (db2.sensors.find? (fun r => decide (r.1 = p.2))).map
              (fun r => (⟨r.1, r.2⟩ : Sensor))
          else none) = [] := by
      rw [List.filterMap_eq_nil_iff]
      intro p hp
      have hmem := (mem_deleteRelationships [L.id] db.location_sensors p).mp hp
      rw [if_neg (by simpa using hmem.2)]
    rw [hnil, List.nil_append]
    simp [List.filterMap_cons, hrBfind, hrCfind, hrBid, hrCid]
  refine ⟨heq, ?_⟩
  rw [heq]
  simp [hAB, hAC]

/-- The state after upserting location 77 with sensors {1,2} into an empty
store. -/
def c5db1 : DBState :=
  ⟨[⟨77, "L", 0, 0, none⟩], [(1, "a"), (2, "b")], [(77, 1), (77, 2)]⟩

/-- The state after then re-upserting location 77 with sensors {2,3}. -/
def c5db2 : DBState :=
  ⟨[⟨77, "L", 0, 0, none⟩], [(1, "a"), (2, "b"), (3, "c")], [(77, 2), (77, 3)]⟩

/-- Witness for C5 at a concrete store: after {1,2} then {2,3}, location 77
is linked to exactly sensors 2 and 3, and sensor 1 is no longer linked. -/
theorem c5_relationship_convergence_witness :
    (get_sensors_by_location c5db2 (77 : Int)).map Sensor.id = [2, 3] ∧
    (1 : Int) ∉ (get_sensors_by_location c5db2 (77 : Int)).map Sensor.id :=
  c5_relationship_convergence (DBState.mk [] [] [])
    (Location.mk 77 "L" 0 0 [] none)
    (Sensor.mk 1 "a") (Sensor.mk 2 "b") (Sensor.mk 3 "c")
    (by decide) (by decide) (by decide) c5db1 c5db2 rfl rfl

end AirQuality
